import Mathlib

/-!
Verification of the transaction synchronization and deduplication engine
(`backend/app/services/dedup.py`, `scheduler.py`, `ynab_client.py`,
`routers/akahu.py`, `models/database.py`).

The Python code is shallowly embedded: pure functions become Lean functions,
session/database state becomes explicit list-of-rows state passed in and out,
fallible operations return `Except`, and the outcomes of external network
calls (the Akahu fetch, the YNAB import) are passed in as `Except`-valued
parameters so every code path of the handlers is represented.  Python
`datetime` values enter the fingerprint only through `date.isoformat()` and
`f"{amount}"`, so transactions carry those rendered strings directly;
timestamps are integer seconds and `timedelta(hours=h)` is `3600 * h`.
-/

namespace YnabSync

/-! ## SHA-256 (the `hashlib.sha256(...).hexdigest()` used by `generate_hash`)

Implemented over `Nat` with explicit reduction mod `2^32`, emitting the
digest as a list of lowercase hex characters, exactly as `hexdigest()` does. -/

def w32 : Nat := 4294967296

def add32 (a b : Nat) : Nat := (a + b) % w32

def rotr (n x : Nat) : Nat := ((x >>> n) ||| (x <<< (32 - n))) % w32

def bigSigma0 (x : Nat) : Nat := (rotr 2 x) ^^^ (rotr 13 x) ^^^ (rotr 22 x)

def bigSigma1 (x : Nat) : Nat := (rotr 6 x) ^^^ (rotr 11 x) ^^^ (rotr 25 x)

def smallSigma0 (x : Nat) : Nat := (rotr 7 x) ^^^ (rotr 18 x) ^^^ (x >>> 3)

def smallSigma1 (x : Nat) : Nat := (rotr 17 x) ^^^ (rotr 19 x) ^^^ (x >>> 10)

def chFn (x y z : Nat) : Nat := (x &&& y) ^^^ ((x ^^^ 4294967295) &&& z)

def majFn (x y z : Nat) : Nat := (x &&& y) ^^^ (x &&& z) ^^^ (y &&& z)

/-- The 64 SHA-256 round constants, in decimal. -/
def sha256K : List Nat :=
  [1116352408, 1899447441, 3049323471, 3921009573, 961987163, 1508970993,
   2453635748, 2870763221, 3624381080, 310598401, 607225278, 1426881987,
   1925078388, 2162078206, 2614888103, 3248222580, 3835390401, 4022224774,
   264347078, 604807628, 770255983, 1249150122, 1555081692, 1996064986,
   2554220882, 2821834349, 2952996808, 3210313671, 3336571891, 3584528711,
   113926993, 338241895, 666307205, 773529912, 1294757372, 1396182291,
   1695183700, 1986661051, 2177026350, 2456956037, 2730485921, 2820302411,
   3259730800, 3345764771, 3516065817, 3600352804, 4094571909, 275423344,
   430227734, 506948616, 659060556, 883997877, 958139571, 1322822218,
   1537002063, 1747873779, 1955562222, 2024104815, 2227730452, 2361852424,
   2428436474, 2756734187, 3204031479, 3329325298]

/-- The eight SHA-256 initial hash words, in decimal. -/
def sha256H0 : List Nat :=
  [1779033703, 3144134277, 1013904242, 2773480762, 1359893119, 2600822924,
   528734635, 1541459225]

/-- Group a block's bytes into big-endian 32-bit words. -/
def toWords : List Nat → List Nat
  | b0 :: b1 :: b2 :: b3 :: rest =>
      (((b0 % 256) <<< 24) + ((b1 % 256) <<< 16) + ((b2 % 256) <<< 8) + (b3 % 256)) :: toWords rest
  | _ => []

/-- The 64-entry message schedule computed from a 64-byte block. -/
def msgSchedule (block : List Nat) : Array Nat :=
  (List.range 48).foldl
    (fun ws i =>
      let t := i + 16
      ws.push (add32 (add32 (smallSigma1 (ws.getD (t - 2) 0)) (ws.getD (t - 7) 0))
                     (add32 (smallSigma0 (ws.getD (t - 15) 0)) (ws.getD (t - 16) 0))))
    (toWords block).toArray

structure SHAState where
  a : Nat
  b : Nat
  c : Nat
  d : Nat
  e : Nat
  f : Nat
  g : Nat
  h : Nat

def roundStep (W : Array Nat) (st : SHAState) (t : Nat) : SHAState :=
  let T1 := (st.h + bigSigma1 st.e + chFn st.e st.f st.g + (sha256K.getD t 0) + W.getD t 0) % w32
  let T2 := (bigSigma0 st.a + majFn st.a st.b st.c) % w32
  { a := (T1 + T2) % w32, b := st.a, c := st.b, d := st.c,
    e := (st.d + T1) % w32, f := st.e, g := st.f, h := st.g }

def compressBlock (H : List Nat) (block : List Nat) : List Nat :=
  let W := msgSchedule block
  let init : SHAState :=
    { a := H.getD 0 0, b := H.getD 1 0, c := H.getD 2 0, d := H.getD 3 0,
      e := H.getD 4 0, f := H.getD 5 0, g := H.getD 6 0, h := H.getD 7 0 }
  let fin := (List.range 64).foldl (roundStep W) init
  [add32 (H.getD 0 0) fin.a, add32 (H.getD 1 0) fin.b, add32 (H.getD 2 0) fin.c,
   add32 (H.getD 3 0) fin.d, add32 (H.getD 4 0) fin.e, add32 (H.getD 5 0) fin.f,
   add32 (H.getD 6 0) fin.g, add32 (H.getD 7 0) fin.h]

/-- Big-endian 8-byte rendering of the bit length, for the final padding. -/
def lengthBytes64 (n : Nat) : List Nat :=
  [(n >>> 56) % 256, (n >>> 48) % 256, (n >>> 40) % 256, (n >>> 32) % 256,
   (n >>> 24) % 256, (n >>> 16) % 256, (n >>> 8) % 256, n % 256]

/-- Standard SHA-256 padding: `0x80`, zeros to 56 mod 64, then the bit length. -/
def padMessage (msg : List Nat) : List Nat :=
  let L := msg.length
  let r := (L + 1) % 64
  let zeros := if r ≤ 56 then 56 - r else 120 - r
  msg ++ [0x80] ++ List.replicate zeros 0 ++ lengthBytes64 (8 * L)

def chunks64Aux : Nat → List Nat → List (List Nat)
  | 0, _ => []
  | _, [] => []
  | fuel + 1, l@(_ :: _) => l.take 64 :: chunks64Aux fuel (l.drop 64)

def chunks64 (l : List Nat) : List (List Nat) := chunks64Aux l.length l

def sha256Words (msg : List Nat) : List Nat :=
  (chunks64 (padMessage msg)).foldl compressBlock sha256H0

/-- One lowercase hex character, as `hexdigest()` renders a nibble. -/
def hexDigit (n : Nat) : Char :=
  if n < 10 then Char.ofNat (48 + n) else Char.ofNat (87 + n)

/-- Fixed-width big-endian hex rendering of a word. -/
def toHexChars : Nat → Nat → List Char
  | 0, _ => []
  | w + 1, n => toHexChars w (n / 16) ++ [hexDigit (n % 16)]

/-- `hashlib.sha256(bytes).hexdigest()` as a list of 64 hex characters. -/
def sha256HexChars (msg : List Nat) : List Char :=
  ((sha256Words msg).map (toHexChars 8)).flatten

/-- UTF-8 encoding of one character, as Python's `str.encode()` produces it. -/
def utf8Bytes (c : Char) : List Nat :=
  let n := c.toNat
  if n < 128 then [n]
  else if n < 2048 then [192 ||| (n >>> 6), 128 ||| (n &&& 63)]
  else if n < 65536 then
    [224 ||| (n >>> 12), 128 ||| ((n >>> 6) &&& 63), 128 ||| (n &&& 63)]
  else
    [240 ||| (n >>> 18), 128 ||| ((n >>> 12) &&& 63), 128 ||| ((n >>> 6) &&& 63), 128 ||| (n &&& 63)]

/-- `str.encode()`: the UTF-8 bytes of a string. -/
def strBytes (s : String) : List Nat :=
  s.data.foldr (fun c acc => utf8Bytes c ++ acc) []

/-! ## `DeduplicationService.generate_hash` (`dedup.py` lines 17-26)

`datetime.isoformat()` and the f-string rendering of the float amount are
deterministic renderings performed before hashing, so the embedding takes the
already-rendered `dateIso` and `amountStr`; `payee or ''` / `memo or ''` on
`Optional[str]` is `Option.getD` composed with the fact that the empty string
is already empty. -/

def generate_hash (dateIso amountStr : String) (payee : Option String)
    (memo : Option String := none) : String :=
  let hash_input := dateIso ++ ":" ++ amountStr ++ ":" ++ payee.getD "" ++ ":" ++ memo.getD ""
  String.mk ((sha256HexChars (strBytes hash_input)).take 32)

/-- The character class of `hexdigest()` output. -/
def isHexChar (c : Char) : Prop := ('0' ≤ c ∧ c ≤ '9') ∨ ('a' ≤ c ∧ c ≤ 'f')

instance (c : Char) : Decidable (isHexChar c) := by
  unfold isHexChar; infer_instance

theorem toHexChars_length (w : Nat) : ∀ n, (toHexChars w n).length = w := by
  induction w with
  | zero => intro n; rfl
  | succ w ih => intro n; simp [toHexChars, ih]

theorem hexDigit_isHex (n : Nat) (h : n < 16) : isHexChar (hexDigit n) := by
  interval_cases n <;> decide

theorem toHexChars_hex (w : Nat) : ∀ n, ∀ c ∈ toHexChars w n, isHexChar c := by
  induction w with
  | zero => intro n c hc; simp [toHexChars] at hc
  | succ w ih =>
      intro n c hc
      simp only [toHexChars, List.mem_append, List.mem_singleton] at hc
      rcases hc with hc | hc
      · exact ih _ c hc
      · subst hc; exact hexDigit_isHex _ (Nat.mod_lt _ (by norm_num))

theorem compressBlock_length (H block : List Nat) : (compressBlock H block).length = 8 := rfl

theorem foldl_compressBlock_length :
    ∀ (bs : List (List Nat)) (H : List Nat), H.length = 8 →
      (bs.foldl compressBlock H).length = 8 := by
  intro bs
  induction bs with
  | nil => intro H h; exact h
  | cons b bs ih => intro H _; exact ih _ (compressBlock_length H b)

theorem sha256Words_length (msg : List Nat) : (sha256Words msg).length = 8 :=
  foldl_compressBlock_length _ _ rfl

theorem join_hex_length :
    ∀ ws : List Nat, ((ws.map (toHexChars 8)).flatten).length = 8 * ws.length := by
  intro ws
  induction ws with
  | nil => rfl
  | cons w ws ih =>
      simp [List.length_append, toHexChars_length, ih, Nat.mul_succ]
      omega

theorem sha256HexChars_length (msg : List Nat) : (sha256HexChars msg).length = 64 := by
  unfold sha256HexChars
  rw [join_hex_length, sha256Words_length]

theorem sha256HexChars_hex (msg : List Nat) : ∀ c ∈ sha256HexChars msg, isHexChar c := by
  intro c hc
  unfold sha256HexChars at hc
  rcases List.mem_flatten.mp hc with ⟨l, hl, hcl⟩
  rcases List.mem_map.mp hl with ⟨w, _, rfl⟩
  exact toHexChars_hex _ _ c hcl

/-- C5: `generate_hash` is a pure deterministic total function (a Lean `def`
over total inputs), its result is a 32-character string of lowercase hex
digits, and absent payee/memo are normalized to the empty string before
hashing, so `generate_hash t a None None = generate_hash t a "" ""`. -/
theorem generate_hash_spec (d a : String) (p m : Option String) :
    (generate_hash d a p m).length = 32
      ∧ (∀ c ∈ (generate_hash d a p m).data, isHexChar c)
      ∧ generate_hash d a none none = generate_hash d a (some "") (some "") := by
  refine ⟨?_, ?_, rfl⟩
  · show ((sha256HexChars (strBytes
      (d ++ ":" ++ a ++ ":" ++ p.getD "" ++ ":" ++ m.getD ""))).take 32).length = 32
    rw [List.length_take, sha256HexChars_length]
    decide
  · intro c hc
    exact sha256HexChars_hex _ c (List.take_subset 32 _ hc)

/-! ## Decimal rendering of integers

Python renders `f"{amount_milliunits}"` and `str(occurrence)` in decimal;
`ynab_client.py` builds dictionary keys and import ids from these renderings,
so the embedding carries its own decimal renderer together with the facts the
proofs need about it: every character is a decimal digit (hence never `:` or
`-` except the leading sign) and the rendering is injective. -/

def digitChar (n : Nat) : Char := Char.ofNat (48 + n)

def natDigitsAux : Nat → Nat → List Char
  | 0, _ => []
  | fuel + 1, n =>
      if n < 10 then [digitChar n] else natDigitsAux fuel (n / 10) ++ [digitChar (n % 10)]

def natDigits (n : Nat) : List Char := natDigitsAux (n + 1) n

def natToString (n : Nat) : String := String.mk (natDigits n)

/-- Python `str()` of an `int`, including the sign. -/
def intToString : Int → String
  | .ofNat n => natToString n
  | .negSucc n => "-" ++ natToString (n + 1)

def digitVal (c : Char) : Nat := c.toNat - 48

def fromDigits (l : List Char) : Nat := l.foldl (fun acc c => acc * 10 + digitVal c) 0

theorem natDigitsAux_bounds :
    ∀ fuel n, ∀ c ∈ natDigitsAux fuel n, 48 ≤ c.toNat ∧ c.toNat ≤ 57 := by
  intro fuel
  induction fuel with
  | zero => intro n c hc; simp [natDigitsAux] at hc
  | succ fuel ih =>
      intro n c hc
      by_cases h : n < 10
      · simp only [natDigitsAux, if_pos h, List.mem_singleton] at hc
        subst hc
        interval_cases n <;> decide
      · simp only [natDigitsAux, if_neg h, List.mem_append, List.mem_singleton] at hc
        rcases hc with hc | hc
        · exact ih _ c hc
        · subst hc
          have h10 : n % 10 < 10 := Nat.mod_lt _ (by norm_num)
          revert h10
          generalize n % 10 = k
          intro h10
          interval_cases k <;> decide

theorem fromDigits_append (l : List Char) (c : Char) :
    fromDigits (l ++ [c]) = 10 * fromDigits l + digitVal c := by
  simp [fromDigits, List.foldl_append]
  ring

theorem fromDigits_natDigitsAux :
    ∀ fuel n, n < fuel → fromDigits (natDigitsAux fuel n) = n := by
  intro fuel
  induction fuel with
  | zero => intro n h; omega
  | succ fuel ih =>
      intro n h
      by_cases h10 : n < 10
      · have hd : digitVal (digitChar n) = n := by interval_cases n <;> decide
        simp [natDigitsAux, if_pos h10, fromDigits, hd]
      · have hrec : n / 10 < fuel := by
          have hlt : n / 10 < n := Nat.div_lt_self (by omega) (by norm_num)
          omega
        have hd : digitVal (digitChar (n % 10)) = n % 10 := by
          have hm : n % 10 < 10 := Nat.mod_lt _ (by norm_num)
          revert hm
          generalize n % 10 = k
          intro hm
          interval_cases k <;> decide
        rw [natDigitsAux, if_neg h10, fromDigits_append, ih _ hrec, hd]
        omega

theorem fromDigits_natDigits (n : Nat) : fromDigits (natDigits n) = n :=
  fromDigits_natDigitsAux _ _ (Nat.lt_succ_self n)

theorem natDigits_ne_nil (n : Nat) : natDigits n ≠ [] := by
  unfold natDigits natDigitsAux
  by_cases h : n < 10 <;> simp [h]

theorem natDigits_bounds (n : Nat) : ∀ c ∈ natDigits n, 48 ≤ c.toNat ∧ c.toNat ≤ 57 :=
  natDigitsAux_bounds _ _

theorem intToString_inj : Function.Injective intToString := by
  intro i j h
  have hdata := congrArg String.data h
  match i, j with
  | .ofNat m, .ofNat k =>
      simp only [intToString, natToString] at hdata
      have : fromDigits (natDigits m) = fromDigits (natDigits k) := by rw [hdata]
      rw [fromDigits_natDigits, fromDigits_natDigits] at this
      exact congrArg Int.ofNat this
  | .ofNat m, .negSucc k =>
      exfalso
      simp only [intToString, natToString, String.data_append] at hdata
      have hm : '-' ∈ natDigits m := by rw [hdata]; simp
      have := natDigits_bounds m '-' hm
      simp at this
  | .negSucc m, .ofNat k =>
      exfalso
      simp only [intToString, natToString, String.data_append] at hdata
      have hm : '-' ∈ natDigits k := by rw [← hdata]; simp
      have := natDigits_bounds k '-' hm
      simp at this
  | .negSucc m, .negSucc k =>
      simp only [intToString, natToString, String.data_append] at hdata
      have hdata' := List.append_cancel_left hdata
      have : fromDigits (natDigits (m + 1)) = fromDigits (natDigits (k + 1)) := by rw [hdata']
      rw [fromDigits_natDigits, fromDigits_natDigits] at this
      have : m = k := by omega
      rw [this]

theorem intToString_no_colon (i : Int) : ∀ c ∈ (intToString i).data, c ≠ ':' := by
  intro c hc
  match i with
  | .ofNat n =>
      simp only [intToString, natToString] at hc
      have := natDigits_bounds n c hc
      intro hcol; subst hcol; simp at this
  | .negSucc n =>
      simp only [intToString, natToString, String.data_append, List.singleton_append] at hc
      rcases List.mem_cons.mp hc with hc | hc
      · subst hc; decide
      · have := natDigits_bounds (n + 1) c hc
        intro hcol; subst hcol; simp at this

/-- Splitting at an unambiguous separator: if neither left part contains the
separator, equal concatenations have equal parts. -/
theorem split_at_colon :
    ∀ (l1 l2 r1 r2 : List Char), (∀ c ∈ l1, c ≠ ':') → (∀ c ∈ l2, c ≠ ':') →
      l1 ++ ':' :: r1 = l2 ++ ':' :: r2 → l1 = l2 ∧ r1 = r2 := by
  intro l1
  induction l1 with
  | nil =>
      intro l2 r1 r2 _ h2 heq
      cases l2 with
      | nil => simp at heq; simp [heq]
      | cons b t2 =>
          exfalso
          simp only [List.nil_append, List.cons_append, List.cons.injEq] at heq
          exact h2 b (List.mem_cons_self _ _) heq.1.symm
  | cons a t1 ih =>
      intro l2 r1 r2 h1 h2 heq
      cases l2 with
      | nil =>
          exfalso
          simp only [List.nil_append, List.cons_append, List.cons.injEq] at heq
          exact h1 a (List.mem_cons_self _ _) heq.1
      | cons b t2 =>
          simp only [List.cons_append, List.cons.injEq] at heq
          obtain ⟨rfl, heq⟩ := heq
          obtain ⟨rfl, hr⟩ := ih t2 r1 r2 (fun c hc => h1 c (List.mem_cons_of_mem _ hc))
            (fun c hc => h2 c (List.mem_cons_of_mem _ hc)) heq
          exact ⟨rfl, hr⟩

/-! ## `YNABClient.generate_import_id` / `create_transactions` (`ynab_client.py`)

`create_transactions` parses each row's date down to a calendar date
(`tx_date.date()`) and converts the float amount with
`dollars_to_milliunits`; both are deterministic per-row conversions, so the
embedding's transaction carries the resulting `dateIso` (the
`tx_date.isoformat()` string) and `amountMilli` (the milliunit integer)
directly.  Only the import-id construction — the part the claims are about —
is modelled; the HTTP POST that follows is the external gateway. -/

structure YnabInputTx where
  dateIso : String
  amountMilli : Int
  payee : Option String := none
  memo : Option String := none
  deriving DecidableEq, Repr, Inhabited

/-- `generate_import_id` (lines 70-76): `YNAB:{amount}:{date}:{occurrence}`. -/
def generate_import_id (dateIso : String) (amount : Int) (occurrence : Int) : String :=
  "YNAB:" ++ intToString amount ++ ":" ++ dateIso ++ ":" ++ intToString occurrence

/-- The `base_key` dictionary key of `create_transactions` (line 111):
`f"{amount_milliunits}:{tx_date.isoformat()}"`. -/
def base_key (tx : YnabInputTx) : String := intToString tx.amountMilli ++ ":" ++ tx.dateIso

/-- One iteration of the `create_transactions` loop (lines 99-126):
`occurrence = import_id_counts.get(base_key, 0) + 1`, store it back, and
append the generated import id.  The dict is an association list whose most
recent binding shadows older ones. -/
def importIdStep (acc : List String × List (String × Nat)) (tx : YnabInputTx) :
    List String × List (String × Nat) :=
  let key := base_key tx
  let occurrence := ((acc.2.lookup key).getD 0) + 1
  (acc.1 ++ [generate_import_id tx.dateIso tx.amountMilli (occurrence : Int)],
   (key, occurrence) :: acc.2)

/-- The import ids `create_transactions` generates for a batch, in order. -/
def create_transactions_import_ids (txs : List YnabInputTx) : List String :=
  (txs.foldl importIdStep (([] : List String), ([] : List (String × Nat)))).1

/-- Reference recursion: the `i`-th import id uses one plus the number of
earlier batch members with the same base key. -/
def importIdsFrom (prev : List YnabInputTx) : List YnabInputTx → List String
  | [] => []
  | tx :: rest =>
      generate_import_id tx.dateIso tx.amountMilli
          (((prev.countP (fun t => base_key t == base_key tx)) + 1 : Nat) : Int)
        :: importIdsFrom (prev ++ [tx]) rest

theorem base_key_eq_iff (s t : YnabInputTx) :
    base_key s = base_key t ↔ (s.amountMilli = t.amountMilli ∧ s.dateIso = t.dateIso) := by
  constructor
  · intro h
    have hdata := congrArg String.data h
    simp only [base_key, String.data_append] at hdata
    rw [List.append_assoc, List.append_assoc] at hdata
    simp only [List.singleton_append] at hdata
    obtain ⟨h1, h2⟩ := split_at_colon _ _ _ _
      (intToString_no_colon s.amountMilli) (intToString_no_colon t.amountMilli) hdata
    refine ⟨intToString_inj ?_, ?_⟩
    · exact String.ext h1
    · exact String.ext h2
  · intro ⟨h1, h2⟩
    simp [base_key, h1, h2]

theorem create_ids_go :
    ∀ (txs prev : List YnabInputTx) (ids : List String) (d : List (String × Nat)),
      (∀ k, (d.lookup k).getD 0 = prev.countP (fun t => base_key t == k)) →
      (txs.foldl importIdStep (ids, d)).1 = ids ++ importIdsFrom prev txs := by
  intro txs
  induction txs with
  | nil => intro prev ids d _; simp [importIdsFrom]
  | cons tx rest ih =>
      intro prev ids d hinv
      have hocc : (d.lookup (base_key tx)).getD 0
          = prev.countP (fun t => base_key t == base_key tx) := hinv (base_key tx)
      have hstep : importIdStep (ids, d) tx =
          (ids ++ [generate_import_id tx.dateIso tx.amountMilli
              (((prev.countP (fun t => base_key t == base_key tx)) + 1 : Nat) : Int)],
           (base_key tx, prev.countP (fun t => base_key t == base_key tx) + 1) :: d) := by
        simp [importIdStep, hocc]
      have hinv' : ∀ k,
          (((base_key tx, prev.countP (fun t => base_key t == base_key tx) + 1) :: d).lookup k).getD 0
            = (prev ++ [tx]).countP (fun t => base_key t == k) := by
        intro k
        by_cases hk : k = base_key tx
        · subst hk
          simp [List.lookup, List.countP_append, List.countP_cons]
        · have hbk : (k == base_key tx) = false := by simp [hk]
          have hbk' : (base_key tx == k) = false := by
            simp only [beq_eq_false_iff_ne, ne_eq]
            exact fun h => hk h.symm
          simp [List.lookup, hbk, hinv k, List.countP_append, List.countP_cons, hbk']
      calc ((tx :: rest).foldl importIdStep (ids, d)).1
          = (rest.foldl importIdStep (importIdStep (ids, d) tx)).1 := by
            simp [List.foldl_cons]
        _ = ids ++ importIdsFrom prev (tx :: rest) := by
            rw [hstep, ih (prev ++ [tx]) _ _ hinv']
            simp [importIdsFrom]

theorem create_transactions_import_ids_eq (txs : List YnabInputTx) :
    create_transactions_import_ids txs = importIdsFrom [] txs := by
  have h := create_ids_go txs [] [] [] (by intro k; simp)
  simpa [create_transactions_import_ids] using h

theorem importIdsFrom_getD :
    ∀ (txs prev : List YnabInputTx) (i : Nat), i < txs.length →
      (importIdsFrom prev txs).getD i "" =
        generate_import_id (txs.getD i default).dateIso (txs.getD i default).amountMilli
          ((((prev ++ txs.take i).countP
              (fun t => base_key t == base_key (txs.getD i default))) + 1 : Nat) : Int) := by
  intro txs
  induction txs with
  | nil => intro prev i h; simp at h
  | cons tx rest ih =>
      intro prev i h
      cases i with
      | zero => simp [importIdsFrom]
      | succ i =>
          have hi : i < rest.length := by simpa using h
          have := ih (prev ++ [tx]) i hi
          simpa [importIdsFrom, List.take_succ_cons, List.append_assoc] using this

theorem base_key_beq_pair (x t : YnabInputTx) :
    (base_key t == base_key x)
      = (t.amountMilli == x.amountMilli && t.dateIso == x.dateIso) := by
  by_cases hbk : base_key t = base_key x
  · obtain ⟨h1, h2⟩ := (base_key_eq_iff t x).mp hbk
    simp [hbk, h1, h2]
  · have hpair : ¬(t.amountMilli = x.amountMilli ∧ t.dateIso = x.dateIso) :=
      fun hc => hbk ((base_key_eq_iff t x).mpr hc)
    have hl : (base_key t == base_key x) = false := beq_eq_false_iff_ne.mpr hbk
    rcases not_and_or.mp hpair with hh | hh
    · have hr : (t.amountMilli == x.amountMilli) = false := beq_eq_false_iff_ne.mpr hh
      rw [hl, hr, Bool.false_and]
    · have hr : (t.dateIso == x.dateIso) = false := beq_eq_false_iff_ne.mpr hh
      rw [hl, hr, Bool.and_false]

/-- C8: within one batch handed to `create_transactions`, the `i`-th
transaction's import key is `YNAB:{amount}:{date}:{occurrence}`, where
`occurrence` is one plus the number of earlier transactions of the same batch
sharing the same `(amount, date)` pair — a 1-based counter that increments per
pair, so two same-amount same-date transactions (regardless of payee) receive
keys differing only in the trailing counter. -/
theorem create_transactions_import_ids_spec
    (txs : List YnabInputTx) (i : Nat) (h : i < txs.length) :
    (create_transactions_import_ids txs).getD i "" =
      "YNAB:" ++ intToString (txs.getD i default).amountMilli ++ ":"
        ++ (txs.getD i default).dateIso ++ ":"
        ++ intToString ((((txs.take i).countP
            (fun t => t.amountMilli == (txs.getD i default).amountMilli
              && t.dateIso == (txs.getD i default).dateIso)) + 1 : Nat) : Int) := by
  rw [create_transactions_import_ids_eq, importIdsFrom_getD txs [] i h]
  have hcount : (txs.take i).countP (fun t => base_key t == base_key (txs.getD i default))
      = (txs.take i).countP (fun t => t.amountMilli == (txs.getD i default).amountMilli
          && t.dateIso == (txs.getD i default).dateIso) := by
    apply List.countP_congr
    intro t _
    constructor
    · intro ht; rw [← base_key_beq_pair]; exact ht
    · intro ht; rw [base_key_beq_pair]; exact ht
  simp only [List.nil_append]
  show "YNAB:" ++ intToString (txs.getD i default).amountMilli ++ ":"
      ++ (txs.getD i default).dateIso ++ ":"
      ++ intToString ((((txs.take i).countP
          (fun t => base_key t == base_key (txs.getD i default))) + 1 : Nat) : Int) = _
  rw [hcount]

def c8tx1 : YnabInputTx := { dateIso := "2024-01-02", amountMilli := 500, payee := some "Alpha" }

def c8tx2 : YnabInputTx := { dateIso := "2024-01-02", amountMilli := 500, payee := some "Beta" }

/-- Witness for C8: two transactions with identical amount and date but
different payees get `...:1` and `...:2`. -/
theorem create_transactions_import_ids_spec_witness :
    1 < ([c8tx1, c8tx2] : List YnabInputTx).length
      ∧ (create_transactions_import_ids [c8tx1, c8tx2]).getD 0 "" = "YNAB:500:2024-01-02:1"
      ∧ (create_transactions_import_ids [c8tx1, c8tx2]).getD 1 "" = "YNAB:500:2024-01-02:2" :=
  ⟨by decide,
   (create_transactions_import_ids_spec [c8tx1, c8tx2] 0 (by decide)).trans (by decide),
   (create_transactions_import_ids_spec [c8tx1, c8tx2] 1 (by decide)).trans (by decide)⟩

/-! ## Data model rows (`models/database.py`) and the Deduplication Ledger

`ImportedTransaction` (table `imported_transactions`) carries a
`transaction_hash` column that is `unique=True` (line 16).  A
`session.commit()` that flushes inserts violating that constraint raises
`IntegrityError` and rolls the transaction back, leaving no partial insert;
the embedding's `record_imports_batch` therefore returns `(.error (), store)`
(exception, state unchanged) exactly when a pending hash collides with an
existing row or with another pending row, and otherwise appends all pending
rows and returns `len(transactions)`. -/

structure TransactionCreate where
  dateIso : String
  amountStr : String
  payee : Option String := none
  memo : Option String := none
  source : String := "csv"
  source_account : Option String := none
  source_transaction_id : Option String := none
  deriving DecidableEq, Repr, Inhabited

structure ImportedTransaction where
  transaction_hash : String
  dateIso : String
  amountStr : String
  payee : Option String := none
  memo : Option String := none
  source : String := "csv"
  source_account : Option String := none
  source_transaction_id : Option String := none
  ynab_budget_id : Option String := none
  ynab_account_id : Option String := none
  ynab_transaction_id : Option String := none
  imported_at : Int := 0
  deriving DecidableEq, Repr, Inhabited

/-- `DeduplicationService.get_existing_hashes` (`dedup.py` lines 28-33): the
hashes of every `ImportedTransaction` row; membership (`in`) is all callers
use of the returned set. -/
def get_existing_hashes (store : List ImportedTransaction) : List String :=
  store.map (·.transaction_hash)

def hasDupHash : List String → Bool
  | [] => false
  | h :: t => t.contains h || hasDupHash t

/-- The list actually zipped against `transactions`:
`ynab_ids = ynab_transaction_ids or [None] * len(transactions)` (line 105),
where Python's `or` replaces both `None` and the empty list. -/
def effectiveYnabIds (transactions : List TransactionCreate)
    (ynab_transaction_ids : Option (List (Option String))) : List (Option String) :=
  match ynab_transaction_ids with
  | none => List.replicate transactions.length none
  | some ids => if ids.isEmpty then List.replicate transactions.length none else ids

/-- The rows the loop of `record_imports_batch` adds to the session: one per
`zip(transactions, ynab_ids)` pair (lines 107-124), hashed with
`generate_hash(tx.date, tx.amount, tx.payee, tx.memo)` (line 108). -/
def pendingRows (transactions : List TransactionCreate)
    (ynab_budget_id ynab_account_id : Option String)
    (ynab_transaction_ids : Option (List (Option String))) (now : Int) :
    List ImportedTransaction :=
  (transactions.zip (effectiveYnabIds transactions ynab_transaction_ids)).map (fun p =>
    { transaction_hash := generate_hash p.1.dateIso p.1.amountStr p.1.payee p.1.memo,
      dateIso := p.1.dateIso, amountStr := p.1.amountStr,
      payee := p.1.payee, memo := p.1.memo,
      source := p.1.source, source_account := p.1.source_account,
      source_transaction_id := p.1.source_transaction_id,
      ynab_budget_id := ynab_budget_id, ynab_account_id := ynab_account_id,
      ynab_transaction_id := p.2, imported_at := now })

/-- `DeduplicationService.record_imports_batch` (`dedup.py` lines 90-127):
one row per `zip(transactions, ynab_ids)` pair — `zip` truncates at the
shorter list — added to the session and committed once, returning
`len(transactions)`.  The commit outcome follows the unique constraint on
`transaction_hash`: any collision fails the whole commit with the state
unchanged. -/
def record_imports_batch (store : List ImportedTransaction)
    (transactions : List TransactionCreate)
    (ynab_budget_id ynab_account_id : Option String)
    (ynab_transaction_ids : Option (List (Option String))) (now : Int) :
    Except Unit Nat × List ImportedTransaction :=
  if transactions.isEmpty then (.ok 0, store)
  else if (pendingRows transactions ynab_budget_id ynab_account_id ynab_transaction_ids now).any
        (fun r => (get_existing_hashes store).contains r.transaction_hash)
      || hasDupHash ((pendingRows transactions ynab_budget_id ynab_account_id
          ynab_transaction_ids now).map (·.transaction_hash)) then
    (.error (), store)
  else
    (.ok transactions.length,
     store ++ pendingRows transactions ynab_budget_id ynab_account_id ynab_transaction_ids now)

def isOkE {α β : Type} : Except α β → Bool
  | .ok _ => true
  | .error _ => false

theorem pendingRows_length (txs : List TransactionCreate) (b a : Option String)
    (ids : Option (List (Option String))) (now : Int) :
    (pendingRows txs b a ids now).length = min txs.length (effectiveYnabIds txs ids).length := by
  simp [pendingRows]

def ct1 : TransactionCreate :=
  { dateIso := "2024-01-15T00:00:00", amountStr := "12.5",
    payee := some "Cafe", memo := some "Coffee", source := "akahu" }

def ct2 : TransactionCreate :=
  { dateIso := "2024-01-16T00:00:00", amountStr := "-3.2",
    payee := some "Store", memo := some "Bread", source := "akahu" }

def ct3 : TransactionCreate :=
  { dateIso := "2024-01-17T00:00:00", amountStr := "7.0",
    payee := none, memo := none, source := "akahu" }

/-- A store already holding the import record of `ct2`. -/
def c4store : List ImportedTransaction :=
  (record_imports_batch [] [ct2] (some "b") (some "a") none 0).2

/-- C3 (amended): on a successful commit `record_imports_batch` always
returns `len(transactions)`; it inserts one row per `zip` pair, i.e.
`min(N, len(ids))` rows, and inserts exactly one row per transaction (padding
the destination id with null) only when the destination-id list is absent or
empty — a non-empty shorter list silently truncates the batch while N is
still returned. -/
theorem record_imports_batch_spec (store : List ImportedTransaction)
    (txs : List TransactionCreate) (b a : Option String)
    (ids : Option (List (Option String))) (now : Int) (n : Nat)
    (store' : List ImportedTransaction)
    (hok : record_imports_batch store txs b a ids now = (.ok n, store')) :
    n = txs.length
      ∧ store'.length = store.length + min txs.length (effectiveYnabIds txs ids).length
      ∧ ((ids = none ∨ ids = some []) → store'.length = store.length + txs.length) := by
  unfold record_imports_batch at hok
  by_cases he : txs.isEmpty
  · rw [if_pos he] at hok
    injection hok with h1 h2
    injection h1 with h1
    have : txs = [] := List.isEmpty_iff.mp he
    subst this; subst h2
    simp [← h1, effectiveYnabIds]
  · rw [if_neg he] at hok
    by_cases hc : ((pendingRows txs b a ids now).any
          (fun r => (get_existing_hashes store).contains r.transaction_hash)
        || hasDupHash ((pendingRows txs b a ids now).map (·.transaction_hash))) = true
    · rw [if_pos hc] at hok
      injection hok with h1 _
      exact absurd h1 (by simp)
    · rw [if_neg hc] at hok
      injection hok with h1 h2
      injection h1 with h1
      subst h2
      refine ⟨h1.symm, ?_, ?_⟩
      · rw [List.length_append, pendingRows_length]
      · rintro (rfl | rfl) <;>
          simp [List.length_append, pendingRows_length, effectiveYnabIds]

/-- Witness for C3 (amended): one transaction, absent id list — returns 1 and
inserts 1 null-destination row. -/
theorem record_imports_batch_spec_witness :
    (1 : Nat) = ([ct1] : List TransactionCreate).length
      ∧ ((record_imports_batch [] [ct1] (some "b") (some "a") none 0).2).length
          = ([] : List ImportedTransaction).length
            + min ([ct1] : List TransactionCreate).length (effectiveYnabIds [ct1] none).length
      ∧ (((none : Option (List (Option String))) = none ∨ (none : Option (List (Option String))) = some []) →
          ((record_imports_batch [] [ct1] (some "b") (some "a") none 0).2).length
            = ([] : List ImportedTransaction).length + ([ct1] : List TransactionCreate).length) :=
  record_imports_batch_spec [] [ct1] (some "b") (some "a") none 0 1
    ((record_imports_batch [] [ct1] (some "b") (some "a") none 0).2) rfl

/-- Counterexample to C3 as stated: two transactions with a non-empty
destination-id list of length one — `record_imports_batch` returns 2 but
inserts only one row; `zip` drops the second transaction instead of padding
the missing id with null. -/
theorem record_imports_batch_short_ids_counterexample :
    (record_imports_batch [] [ct1, ct2] (some "b") (some "a") (some [some "y1"]) 0).1
        = Except.ok 2
      ∧ ((record_imports_batch [] [ct1, ct2] (some "b") (some "a") (some [some "y1"]) 0).2).length
          = 1 :=
  ⟨rfl, rfl⟩

/-- C4 (amended): when the destination-id list covers the batch, a
fingerprint that already exists in the store makes the single commit of
`record_imports_batch` fail atomically: the result is the unique-constraint
error and the store is unchanged — zero rows inserted, the existing record
never overwritten, and no per-row insert-or-skip fallback exists. -/
theorem record_imports_batch_conflict_atomic (store : List ImportedTransaction)
    (txs : List TransactionCreate) (b a : Option String)
    (ids : Option (List (Option String))) (now : Int)
    (hcover : txs.length ≤ (effectiveYnabIds txs ids).length)
    (hconf : ∃ tx ∈ txs, (get_existing_hashes store).contains
        (generate_hash tx.dateIso tx.amountStr tx.payee tx.memo) = true) :
    record_imports_batch store txs b a ids now = (.error (), store) := by
  obtain ⟨tx, htx, hc⟩ := hconf
  have hne : ¬ txs.isEmpty = true := by
    cases txs
    · simp at htx
    · simp
  have hlen : (pendingRows txs b a ids now).length = txs.length := by
    rw [pendingRows_length]; omega
  have hany : (pendingRows txs b a ids now).any
      (fun r => (get_existing_hashes store).contains r.transaction_hash) = true := by
    rw [List.any_eq_true]
    obtain ⟨i, hi, hget⟩ := List.getElem_of_mem htx
    have hi' : i < (pendingRows txs b a ids now).length := by omega
    refine ⟨(pendingRows txs b a ids now)[i], List.getElem_mem hi', ?_⟩
    have hhash : ((pendingRows txs b a ids now)[i]).transaction_hash
        = generate_hash tx.dateIso tx.amountStr tx.payee tx.memo := by
      simp [pendingRows, List.getElem_zip, hget]
    rw [hhash]
    exact hc
  unfold record_imports_batch
  rw [if_neg hne, if_pos (by rw [hany, Bool.true_or])]

set_option maxRecDepth 1000000 in
/-- Witness for C4 (amended): re-recording `ct2` over a store that already
holds its fingerprint fails and leaves the store unchanged. -/
theorem record_imports_batch_conflict_atomic_witness :
    record_imports_batch c4store [ct2] (some "b") (some "a") none 1 = (.error (), c4store) :=
  record_imports_batch_conflict_atomic c4store [ct2] (some "b") (some "a") none 1
    (by decide) (by decide)

set_option maxRecDepth 1000000 in
/-- Counterexample to C4 as stated: a batch of three whose first member's
fingerprint already exists ends in an error with ZERO new rows inserted — not
with the other two rows recorded by a per-row fallback. -/
theorem record_imports_batch_no_fallback_counterexample :
    isOkE (record_imports_batch c4store [ct2, ct1, ct3] (some "b") (some "a")
        (some [some "x", some "y", some "z"]) 1).1 = false
      ∧ (record_imports_batch c4store [ct2, ct1, ct3] (some "b") (some "a")
          (some [some "x", some "y", some "z"]) 1).2 = c4store
      ∧ c4store.length = 1 :=
  ⟨rfl, rfl, rfl⟩

/-! ## The sync pipeline (`routers/akahu.py`, `services/scheduler.py`)

Both sync paths are embedded as pure state transformers.  The database
session becomes the explicit row lists passed in and out; the two network
calls — the Akahu fetch and the YNAB import — are external collaborators, so
their outcomes are parameters (`Except`-valued: `.error` is the exception
path).  `datetime.utcnow()` is the single completion-time parameter `now`
(integer seconds; `timedelta(hours=h)` is `3600 * h`). -/

structure AkahuTx where
  id : String
  account_id : String
  dateIso : String
  amountStr : String
  description : String
  merchant : Option String := none
  deriving DecidableEq, Repr, Inhabited

structure LinkRow where
  id : Int := 0
  akahu_account_id : String
  ynab_budget_id : Option String := none
  ynab_account_id : Option String := none
  auto_sync : Bool := false
  last_synced_at : Option Int := none
  schedule_enabled : Bool := false
  schedule_interval_hours : Int := 6
  schedule_days_to_sync : Option Int := some 7
  next_sync_at : Option Int := none
  last_sync_status : Option String := none
  last_sync_message : Option String := none
  last_sync_imported : Option Int := some 0
  deriving DecidableEq, Repr

structure SyncLogRow where
  akahu_account_id : String
  started_at : Int
  completed_at : Option Int := none
  status : String
  transactions_found : Int := 0
  transactions_imported : Int := 0
  transactions_skipped : Int := 0
  ynab_duplicates : Int := 0
  error_message : Option String := none
  trigger : String := "manual"
  deriving DecidableEq, Repr

structure YNABImportResult where
  transaction_ids : List String
  duplicate_import_ids : List String
  deriving DecidableEq, Repr

/-- Python's `a or b` on an optional string versus a string: `None` and `""`
are falsy. -/
def pyOr (a : Option String) (b : String) : String :=
  match a with
  | some s => if s = "" then b else s
  | none => b

/-- The fingerprint both sync paths compute when filtering against existing
hashes (`akahu.py` line 241, `scheduler.py` line 117):
`generate_hash(tx.date, tx.amount, tx.merchant or tx.description)` — the
memo argument is omitted and defaults to `None`. -/
def akahuFilterHash (tx : AkahuTx) : String :=
  generate_hash tx.dateIso tx.amountStr (some (pyOr tx.merchant tx.description))

/-- Python's `s[:50]`. -/
def strTake (s : String) (n : Nat) : String := String.mk (s.data.take n)

/-- The `TransactionCreate` both sync paths build for a surviving transaction
(`akahu.py` lines 254-262, `scheduler.py` lines 130-138):
`payee = (tx.merchant or tx.description[:50]) if tx.description else None`,
`memo = tx.description`. -/
def toTransactionCreate (akahu_account_id : String) (tx : AkahuTx) : TransactionCreate :=
  { dateIso := tx.dateIso, amountStr := tx.amountStr,
    payee := if tx.description = "" then none
             else some (pyOr tx.merchant (strTake tx.description 50)),
    memo := some tx.description,
    source := "akahu", source_account := some akahu_account_id,
    source_transaction_id := some tx.id }

/-- The duplicate count of the filtering loop (`skipped`); the scheduled path
is the `skip_duplicates = true` instance. -/
def akahuSkippedCount (skip_duplicates : Bool) (existing : List String)
    (txs : List AkahuTx) : Nat :=
  txs.countP (fun tx => skip_duplicates && existing.contains (akahuFilterHash tx))

/-- The transactions surviving the filtering loop, in fetch order. -/
def akahuToImport (skip_duplicates : Bool) (existing : List String)
    (txs : List AkahuTx) : List AkahuTx :=
  txs.filter (fun tx => !(skip_duplicates && existing.contains (akahuFilterHash tx)))

structure ManualSyncResponse where
  imported : Nat
  ynab_duplicates : Nat := 0
  skipped_duplicates : Nat
  message : Option String := none
  transaction_ids : List String := []
  deriving DecidableEq, Repr

/-- The manual sync endpoint `sync_akahu_account` (`akahu.py` lines 187-302).
`link?` is the result of the account-link lookup; the first component is the
HTTP outcome (`.error` for a raised `HTTPException` or a propagated
`IntegrityError`, in which case the failed commit rolls back); the last
component is the `imported_transactions` table after the request. -/
def sync_akahu_account (link? : Option LinkRow) (imported : List ImportedTransaction)
    (akahu_account_id : String) (skip_duplicates : Bool)
    (fetchResult : Except String (List AkahuTx))
    (ynabResult : Except String YNABImportResult) (now : Int) :
    Except String ManualSyncResponse × Option LinkRow × List ImportedTransaction :=
  match link? with
  | none => (.error "Akahu account is not linked to a YNAB account", none, imported)
  | some link =>
    if link.ynab_account_id.isNone then
      (.error "Akahu account is not linked to a YNAB account", some link, imported)
    else
      match fetchResult with
      | .error e => (.error ("Failed to fetch Akahu transactions: " ++ e), some link, imported)
      | .ok transactions =>
        if transactions.isEmpty then
          (.ok { imported := 0, skipped_duplicates := 0, message := some "No transactions found" },
           some link, imported)
        else if (akahuToImport skip_duplicates (get_existing_hashes imported) transactions).isEmpty then
          (.ok { imported := 0,
                 skipped_duplicates := akahuSkippedCount skip_duplicates (get_existing_hashes imported) transactions,
                 message := some "All transactions were duplicates" },
           some link, imported)
        else
          match ynabResult with
          | .error e => (.error ("Failed to import to YNAB: " ++ e), some link, imported)
          | .ok res =>
            match record_imports_batch imported
                ((akahuToImport skip_duplicates (get_existing_hashes imported) transactions).map
                  (toTransactionCreate akahu_account_id))
                link.ynab_budget_id link.ynab_account_id
                (some (res.transaction_ids.map some)) now with
            | (.error _, st) => (.error "IntegrityError", some link, st)
            | (.ok _, st) =>
              (.ok { imported := res.transaction_ids.length,
                     ynab_duplicates := res.duplicate_import_ids.length,
                     skipped_duplicates := akahuSkippedCount skip_duplicates (get_existing_hashes imported) transactions,
                     transaction_ids := res.transaction_ids },
               some { link with last_synced_at := some now }, st)

structure JobResult where
  link : Option LinkRow
  log : Option SyncLogRow
  imported : List ImportedTransaction
  deriving DecidableEq, Repr

/-- The scheduled job `sync_akahu_account_job` (`scheduler.py` lines 40-206).
On fetch failure the log is marked failed and the link's status/message
updated, but `next_sync_at` is NOT touched; only the three success commits
(lines 102, 150, 192) set `next_sync_at = utcnow() + timedelta(hours=
schedule_interval_hours)`.  If `record_imports_batch` raises, the outer
handler's own commit fails after the rollback (swallowed by the bare
`except`), so the log keeps its committed `running` state and the link keeps
the `running` status committed at line 71. -/
def sync_akahu_account_job (link? : Option LinkRow) (imported : List ImportedTransaction)
    (akahu_account_id : String)
    (fetchResult : Except String (List AkahuTx))
    (ynabResult : Except String YNABImportResult) (now : Int) : JobResult :=
  match link? with
  | none => ⟨none, none, imported⟩
  | some link =>
    if link.ynab_account_id.isNone then ⟨some link, none, imported⟩
    else
      match fetchResult with
      | .error e =>
        ⟨some { link with last_sync_status := some "failed", last_sync_message := some e },
         some { akahu_account_id := akahu_account_id, started_at := now, status := "failed",
                error_message := some e, completed_at := some now, trigger := "scheduled" },
         imported⟩
      | .ok transactions =>
        if transactions.isEmpty then
          ⟨some { link with
                  last_sync_status := some "success",
                  last_sync_message := some "No transactions found",
                  last_sync_imported := some 0, last_synced_at := some now,
                  next_sync_at := some (now + 3600 * link.schedule_interval_hours) },
           some { akahu_account_id := akahu_account_id, started_at := now, status := "success",
                  completed_at := some now, trigger := "scheduled" },
           imported⟩
        else if (akahuToImport true (get_existing_hashes imported) transactions).isEmpty then
          ⟨some { link with
                  last_sync_status := some "success",
                  last_sync_message := some ("All "
                    ++ natToString (akahuSkippedCount true (get_existing_hashes imported) transactions)
                    ++ " transactions were duplicates"),
                  last_sync_imported := some 0, last_synced_at := some now,
                  next_sync_at := some (now + 3600 * link.schedule_interval_hours) },
           some { akahu_account_id := akahu_account_id, started_at := now, status := "success",
                  completed_at := some now, trigger := "scheduled",
                  transactions_found := (transactions.length : Int), transactions_imported := 0,
                  transactions_skipped :=
                    (akahuSkippedCount true (get_existing_hashes imported) transactions : Int) },
           imported⟩
        else
          match ynabResult with
          | .error e =>
            ⟨some { link with
                    last_sync_status := some "failed",
                    last_sync_message := some ("YNAB import failed: " ++ e) },
             some { akahu_account_id := akahu_account_id, started_at := now, status := "failed",
                    error_message := some e, completed_at := some now, trigger := "scheduled",
                    transactions_found := (transactions.length : Int),
                    transactions_skipped :=
                      (akahuSkippedCount true (get_existing_hashes imported) transactions : Int) },
             imported⟩
          | .ok res =>
            match record_imports_batch imported
                ((akahuToImport true (get_existing_hashes imported) transactions).map
                  (toTransactionCreate akahu_account_id))
                link.ynab_budget_id link.ynab_account_id
                (some (res.transaction_ids.map some)) now with
            | (.error _, st) =>
              ⟨some { link with last_sync_status := some "running" },
               some { akahu_account_id := akahu_account_id, started_at := now,
                      status := "running", trigger := "scheduled" },
               st⟩
            | (.ok _, st) =>
              ⟨some { link with
                      last_sync_status := some "success",
                      last_sync_message := some ("Imported "
                        ++ natToString res.transaction_ids.length ++ " transactions"),
                      last_sync_imported := some (res.transaction_ids.length : Int),
                      last_synced_at := some now,
                      next_sync_at := some (now + 3600 * link.schedule_interval_hours) },
               some { akahu_account_id := akahu_account_id, started_at := now, status := "success",
                      completed_at := some now, trigger := "scheduled",
                      transactions_found := (transactions.length : Int),
                      transactions_imported := (res.transaction_ids.length : Int),
                      transactions_skipped :=
                        (akahuSkippedCount true (get_existing_hashes imported) transactions : Int),
                      ynab_duplicates := (res.duplicate_import_ids.length : Int) },
               st⟩

structure SchedulerJobDefaults where
  coalesce : Bool
  max_instances : Nat
  misfire_grace_time : Nat
  deriving DecidableEq, Repr

/-- The `job_defaults` passed to `AsyncIOScheduler` in `get_scheduler`
(`scheduler.py` lines 209-221): coalesce pending executions, at most one
running instance per job, 30-minute misfire grace. -/
def scheduler_job_defaults : SchedulerJobDefaults :=
  { coalesce := true, max_instances := 1, misfire_grace_time := 60 * 30 }

/-- An Akahu transaction with a merchant and a non-empty description. -/
def c1tx : AkahuTx :=
  { id := "t1", account_id := "acc", dateIso := "2024-01-15T00:00:00", amountStr := "12.5",
    description := "Coffee time", merchant := some "Cafe" }

def c1link : LinkRow :=
  { akahu_account_id := "acc", ynab_budget_id := some "b", ynab_account_id := some "y",
    schedule_enabled := true }

/-- First scheduled sync of `c1tx` over an empty ledger. -/
def c1run1 : JobResult :=
  sync_akahu_account_job (some c1link) [] "acc" (.ok [c1tx]) (.ok ⟨["id1"], []⟩) 0

/-- Second scheduled sync of the identical transaction. -/
def c1run2 : JobResult :=
  sync_akahu_account_job (some c1link) c1run1.imported "acc" (.ok [c1tx]) (.ok ⟨["id2"], []⟩) 100

set_option maxRecDepth 1000000 in
set_option maxHeartbeats 4000000 in
/-- C1, evaluated at the failing input: the fingerprint computed when
filtering (`generate_hash(tx.date, tx.amount, tx.merchant or
tx.description)`, memo omitted) differs from the fingerprint stored when
recording (`generate_hash(tx.date, tx.amount, tx.payee, tx.memo)` on the
built `TransactionCreate`), so re-importing the identical Akahu transaction
is NOT skipped as a local duplicate: the second run counts zero skipped,
sends the transaction again, and its batch insert hits the unique constraint,
leaving the log stuck in `running`.  Exactly one Import Record survives only
because the constraint rejects the insert, not because of the claimed
fingerprint equality. -/
theorem akahu_second_import_not_skipped :
    akahuFilterHash c1tx
        ≠ generate_hash c1tx.dateIso c1tx.amountStr
            (toTransactionCreate "acc" c1tx).payee (toTransactionCreate "acc" c1tx).memo
      ∧ c1run1.imported.length = 1
      ∧ (c1run2.log).map (·.transactions_skipped) = some 0
      ∧ (c1run2.log).map (·.status) = some "running"
      ∧ c1run2.imported = c1run1.imported :=
  ⟨by decide, rfl, rfl, rfl, rfl⟩

/-- The manual handler reads the link row only through `ynab_account_id` and
`ynab_budget_id`; its HTTP outcome and its effect on the Import Record table
are therefore identical for any two link rows agreeing on those two fields. -/
theorem sync_akahu_account_link_congr (l l' : LinkRow)
    (h1 : l.ynab_account_id = l'.ynab_account_id)
    (h2 : l.ynab_budget_id = l'.ynab_budget_id)
    (imported : List ImportedTransaction) (id : String) (skip : Bool)
    (fetch : Except String (List AkahuTx)) (yr : Except String YNABImportResult) (now : Int) :
    (sync_akahu_account (some l) imported id skip fetch yr now).1
        = (sync_akahu_account (some l') imported id skip fetch yr now).1
      ∧ (sync_akahu_account (some l) imported id skip fetch yr now).2.2
        = (sync_akahu_account (some l') imported id skip fetch yr now).2.2 := by
  simp only [sync_akahu_account]
  rw [h1, h2]
  constructor <;> (cases fetch <;> dsimp only <;> (repeat' split) <;> rfl)

/-- C2 (amended): single-flight is configured only for the scheduled job
(`max_instances=1` with coalescing), while the manual sync endpoint performs
no single-flight check at all — its outcome and its effect on the Import
Record table are independent of the account's `last_sync_status`, so a manual
trigger arriving while the account is `running` does the full work of a
second run instead of being dropped. -/
theorem manual_sync_no_single_flight :
    scheduler_job_defaults.max_instances = 1
      ∧ scheduler_job_defaults.coalesce = true
      ∧ ∀ (l : LinkRow) (st : Option String) (imported : List ImportedTransaction)
          (id : String) (skip : Bool) (fetch : Except String (List AkahuTx))
          (yr : Except String YNABImportResult) (now : Int),
          (sync_akahu_account (some { l with last_sync_status := st }) imported id skip fetch yr now).1
              = (sync_akahu_account (some l) imported id skip fetch yr now).1
            ∧ (sync_akahu_account (some { l with last_sync_status := st }) imported id skip fetch yr now).2.2
              = (sync_akahu_account (some l) imported id skip fetch yr now).2.2 :=
  ⟨rfl, rfl, fun l st imported id skip fetch yr now =>
    sync_akahu_account_link_congr { l with last_sync_status := st } l rfl rfl
      imported id skip fetch yr now⟩

/-- A linked account whose scheduled run is currently `running`. -/
def c2link : LinkRow :=
  { akahu_account_id := "acc", ynab_budget_id := some "b", ynab_account_id := some "y",
    last_sync_status := some "running" }

/-- Counterexample to C2 as stated: with the account's scheduled run in the
`running` state, the manual sync endpoint is not coalesced or dropped — it
executes the full pipeline and records an import. -/
theorem manual_sync_during_running_counterexample :
    c2link.last_sync_status = some "running"
      ∧ isOkE (sync_akahu_account (some c2link) [] "acc" true
          (.ok [c1tx]) (.ok ⟨["id9"], []⟩) 3).1 = true
      ∧ ((sync_akahu_account (some c2link) [] "acc" true
          (.ok [c1tx]) (.ok ⟨["id9"], []⟩) 3).2.2).length = 1 :=
  ⟨rfl, rfl, rfl⟩

/-- C6 (amended): a scheduled run that fails at the fetch step records the
failure — log `failed` with the error message and completion time, account
status/message updated — but leaves the account's `next_sync_at` exactly as
it was: only successful runs recompute `next_sync_at = now + interval`.  (The
APScheduler interval trigger refires on its own cadence regardless; the
stored `next_sync_at` column is simply not updated on failure.) -/
theorem sync_job_fetch_failure_keeps_next_sync (link : LinkRow) (y : String)
    (hlink : link.ynab_account_id = some y) (imported : List ImportedTransaction)
    (id e : String) (yr : Except String YNABImportResult) (now : Int) :
    ((sync_akahu_account_job (some link) imported id (.error e) yr now).link).map (·.next_sync_at)
        = some link.next_sync_at
      ∧ ((sync_akahu_account_job (some link) imported id (.error e) yr now).link).map (·.last_sync_status)
        = some (some "failed")
      ∧ ((sync_akahu_account_job (some link) imported id (.error e) yr now).link).map (·.last_sync_message)
        = some (some e)
      ∧ ((sync_akahu_account_job (some link) imported id (.error e) yr now).log).map (·.status)
        = some "failed"
      ∧ ((sync_akahu_account_job (some link) imported id (.error e) yr now).log).map (·.completed_at)
        = some (some now)
      ∧ (sync_akahu_account_job (some link) imported id (.error e) yr now).imported = imported := by
  have hn : link.ynab_account_id.isNone = false := by rw [hlink]; rfl
  simp [sync_akahu_account_job, hn]

/-- A linked account with a pending `next_sync_at` of 1000. -/
def c6link : LinkRow :=
  { akahu_account_id := "acc", ynab_budget_id := some "b", ynab_account_id := some "y",
    next_sync_at := some 1000, schedule_interval_hours := 6 }

/-- Witness for C6 (amended): concrete fetch failure at time 5000. -/
theorem sync_job_fetch_failure_keeps_next_sync_witness :
    ((sync_akahu_account_job (some c6link) [] "acc" (.error "boom") (.error "x") 5000).link).map (·.next_sync_at)
        = some c6link.next_sync_at
      ∧ ((sync_akahu_account_job (some c6link) [] "acc" (.error "boom") (.error "x") 5000).link).map (·.last_sync_status)
        = some (some "failed")
      ∧ ((sync_akahu_account_job (some c6link) [] "acc" (.error "boom") (.error "x") 5000).link).map (·.last_sync_message)
        = some (some "boom")
      ∧ ((sync_akahu_account_job (some c6link) [] "acc" (.error "boom") (.error "x") 5000).log).map (·.status)
        = some "failed"
      ∧ ((sync_akahu_account_job (some c6link) [] "acc" (.error "boom") (.error "x") 5000).log).map (·.completed_at)
        = some (some 5000)
      ∧ (sync_akahu_account_job (some c6link) [] "acc" (.error "boom") (.error "x") 5000).imported = [] :=
  sync_job_fetch_failure_keeps_next_sync c6link "y" rfl [] "acc" "boom" (.error "x") 5000

/-- Counterexample to C6 as stated: after the fetch-failure run completes at
time 5000, `next_sync_at` still holds its old value 1000, not
`completion_time + interval_hours`. -/
theorem sync_job_fetch_failure_counterexample :
    ((sync_akahu_account_job (some c6link) [] "acc" (.error "boom") (.error "x") 5000).link).map (·.next_sync_at)
        = some (some 1000)
      ∧ ((sync_akahu_account_job (some c6link) [] "acc" (.error "boom") (.error "x") 5000).link).map (·.next_sync_at)
        ≠ some (some (5000 + 3600 * c6link.schedule_interval_hours)) :=
  ⟨rfl, by decide⟩

/-- C9: if the YNAB import call raises, neither sync path touches the
Deduplication Ledger — `record_imports_batch` is only reached after a
successful gateway call, so no Import Record is created for any transaction
of the failed batch. -/
theorem gateway_failure_leaves_ledger_untouched
    (link? : Option LinkRow) (imported : List ImportedTransaction) (id : String)
    (skip : Bool) (fetch : Except String (List AkahuTx))
    (yr : Except String YNABImportResult) (e : String) (now : Int)
    (hyr : yr = .error e) :
    (sync_akahu_account link? imported id skip fetch yr now).2.2 = imported
      ∧ (sync_akahu_account_job link? imported id fetch yr now).imported = imported := by
  subst hyr
  constructor
  · cases link? with
    | none => rfl
    | some l =>
        simp only [sync_akahu_account]
        cases fetch <;> dsimp only <;> (repeat' split) <;> rfl
  · cases link? with
    | none => rfl
    | some l =>
        simp only [sync_akahu_account_job]
        cases fetch <;> dsimp only <;> (repeat' split) <;> rfl

def c9tx : AkahuTx :=
  { id := "t9", account_id := "acc", dateIso := "2024-02-01T00:00:00", amountStr := "4.5",
    description := "Groceries", merchant := none }

def c9link : LinkRow :=
  { akahu_account_id := "acc", ynab_budget_id := some "b", ynab_account_id := some "y" }

def c9store : List ImportedTransaction :=
  [{ transaction_hash := "aaaa", dateIso := "2020-01-01T00:00:00", amountStr := "1.0" }]

/-- Witness for C9: a gateway outage (`.error "down"`) at a state with one
prior Import Record leaves the ledger as-is on both paths. -/
theorem gateway_failure_leaves_ledger_untouched_witness :
    (sync_akahu_account (some c9link) c9store "acc" true (.ok [c9tx]) (.error "down") 7).2.2
        = c9store
      ∧ (sync_akahu_account_job (some c9link) c9store "acc" (.ok [c9tx]) (.error "down") 7).imported
        = c9store :=
  gateway_failure_leaves_ledger_untouched (some c9link) c9store "acc" true
    (.ok [c9tx]) (.error "down") "down" 7 rfl

/-! ## Schedule configuration (`set_account_schedule`, `akahu.py` lines 332-382) -/

def valid_intervals : List Int := [1, 2, 4, 6, 12, 24]

/-- Python's `min(l, key=key)`: the first element attaining the minimal key.
The empty-list case (a `ValueError` in Python) is unreachable here because
`valid_intervals` is a non-empty literal. -/
def pyMinByKey (l : List Int) (key : Int → Nat) : Int :=
  match l with
  | [] => 0
  | x :: xs => xs.foldl (fun best y => if key y < key best then y else best) x

/-- The request body; pydantic validates `interval_hours` into `1..24` and
`days_to_sync` into `1..90` (`schemas/akahu.py` lines 45-49), but nothing
below depends on those bounds. -/
structure ScheduleConfig where
  enabled : Bool := true
  interval_hours : Int := 6
  days_to_sync : Int := 7
  deriving DecidableEq, Repr

/-- `set_account_schedule`: 404 when the account row is missing, 400 when it
is not linked to YNAB; an `interval_hours` outside `valid_intervals` is
snapped with `min(valid_intervals, key=lambda x: abs(x - v))` (line 357);
enabling computes `next_sync_at = utcnow() + timedelta(hours=interval)`,
disabling clears it. -/
def set_account_schedule (account? : Option LinkRow) (config : ScheduleConfig) (now : Int) :
    Except String (LinkRow × ScheduleConfig) :=
  match account? with
  | none => .error "Account not found"
  | some account =>
    if account.ynab_account_id.isNone then
      .error "Account must be linked to YNAB before enabling scheduled sync"
    else
      let interval :=
        if valid_intervals.contains config.interval_hours then config.interval_hours
        else pyMinByKey valid_intervals (fun x => (x - config.interval_hours).natAbs)
      .ok ({ account with
             schedule_enabled := config.enabled,
             schedule_interval_hours := interval,
             schedule_days_to_sync := some config.days_to_sync,
             next_sync_at := if config.enabled then some (now + 3600 * interval) else none },
           { config with interval_hours := interval })

theorem foldl_minBy (key : Int → Nat) :
    ∀ (xs : List Int) (b : Int),
      (xs.foldl (fun best y => if key y < key best then y else best) b = b
          ∨ xs.foldl (fun best y => if key y < key best then y else best) b ∈ xs)
        ∧ key (xs.foldl (fun best y => if key y < key best then y else best) b) ≤ key b
        ∧ ∀ y ∈ xs, key (xs.foldl (fun best y => if key y < key best then y else best) b) ≤ key y := by
  intro xs
  induction xs with
  | nil => intro b; exact ⟨Or.inl rfl, le_refl _, by simp⟩
  | cons y ys ih =>
      intro b
      simp only [List.foldl_cons]
      obtain ⟨hmem, hb, hall⟩ := ih (if key y < key b then y else b)
      have hkb : key (if key y < key b then y else b) ≤ key b := by
        by_cases h : key y < key b
        · rw [if_pos h]; omega
        · rw [if_neg h]
      have hky : key (if key y < key b then y else b) ≤ key y := by
        by_cases h : key y < key b
        · rw [if_pos h]
        · rw [if_neg h]; omega
      refine ⟨?_, le_trans hb hkb, ?_⟩
      · rcases hmem with hmem | hmem
        · rw [hmem]
          by_cases h : key y < key b
          · rw [if_pos h]; right; exact List.mem_cons_self _ _
          · rw [if_neg h]; left; rfl
        · right; exact List.mem_cons_of_mem _ hmem
      · intro z hz
        rcases List.mem_cons.mp hz with rfl | hz
        · exact le_trans hb hky
        · exact hall z hz

theorem pyMinByKey_valid (key : Int → Nat) :
    pyMinByKey valid_intervals key ∈ valid_intervals
      ∧ ∀ w ∈ valid_intervals, key (pyMinByKey valid_intervals key) ≤ key w := by
  have hpy : pyMinByKey valid_intervals key
      = ([2, 4, 6, 12, 24] : List Int).foldl
          (fun best y => if key y < key best then y else best) 1 := rfl
  obtain ⟨hmem, hb, hall⟩ := foldl_minBy key [2, 4, 6, 12, 24] 1
  rw [hpy]
  constructor
  · rcases hmem with hmem | hmem
    · rw [hmem]; decide
    · exact List.mem_cons_of_mem _ hmem
  · intro w hw
    have hw' : w = 1 ∨ w ∈ ([2, 4, 6, 12, 24] : List Int) := by
      rcases List.mem_cons.mp hw with rfl | hw2
      · exact Or.inl rfl
      · exact Or.inr hw2
    rcases hw' with rfl | hw2
    · exact hb
    · exact hall w hw2

/-- C7: an `interval_hours` outside the allowed set `{1,2,4,6,12,24}` is
snapped to a nearest allowed value rather than rejected (the handler returns
success), and when the schedule is enabled `next_sync_at` is set to
`now + snapped_interval` hours; disabling clears it. -/
theorem set_account_schedule_snaps (account : LinkRow) (y : String)
    (hlink : account.ynab_account_id = some y) (config : ScheduleConfig) (now : Int)
    (hout : config.interval_hours ∉ valid_intervals) :
    ∃ account' config',
      set_account_schedule (some account) config now = .ok (account', config')
        ∧ config'.interval_hours ∈ valid_intervals
        ∧ (∀ w ∈ valid_intervals,
            (config'.interval_hours - config.interval_hours).natAbs
              ≤ (w - config.interval_hours).natAbs)
        ∧ account'.schedule_interval_hours = config'.interval_hours
        ∧ account'.schedule_enabled = config.enabled
        ∧ (config.enabled = true →
            account'.next_sync_at = some (now + 3600 * config'.interval_hours))
        ∧ (config.enabled = false → account'.next_sync_at = none) := by
  have hn : account.ynab_account_id.isNone = false := by rw [hlink]; rfl
  have hcont : valid_intervals.contains config.interval_hours = false := by
    cases hb : valid_intervals.contains config.interval_hours
    · rfl
    · obtain ⟨a', ha', hbeq⟩ := List.contains_iff_exists_mem_beq.mp hb
      exact absurd (eq_of_beq hbeq ▸ ha') hout
  obtain ⟨hmem, hmin⟩ := pyMinByKey_valid (fun x => (x - config.interval_hours).natAbs)
  refine ⟨{ account with
      schedule_enabled := config.enabled,
      schedule_interval_hours :=
        pyMinByKey valid_intervals (fun x => (x - config.interval_hours).natAbs),
      schedule_days_to_sync := some config.days_to_sync,
      next_sync_at := if config.enabled then
        some (now + 3600 * pyMinByKey valid_intervals (fun x => (x - config.interval_hours).natAbs))
      else none },
    { config with interval_hours :=
        pyMinByKey valid_intervals (fun x => (x - config.interval_hours).natAbs) },
    ?_, hmem, hmin, rfl, rfl, ?_, ?_⟩
  · simp only [set_account_schedule, hn, Bool.false_eq_true, if_false, hcont]
  · intro he; simp only [he, if_true]
  · intro he; simp only [he, Bool.false_eq_true, if_false]

def c7link : LinkRow :=
  { akahu_account_id := "acc", ynab_budget_id := some "b", ynab_account_id := some "y" }

/-- Witness for C7: interval 5 (outside the set) on a linked account. -/
theorem set_account_schedule_snaps_witness :
    ∃ account' config',
      set_account_schedule (some c7link)
          { enabled := true, interval_hours := 5, days_to_sync := 7 } 0 = .ok (account', config')
        ∧ config'.interval_hours ∈ valid_intervals
        ∧ (∀ w ∈ valid_intervals,
            (config'.interval_hours - (5 : Int)).natAbs ≤ (w - (5 : Int)).natAbs)
        ∧ account'.schedule_interval_hours = config'.interval_hours
        ∧ account'.schedule_enabled = true
        ∧ (true = true → account'.next_sync_at = some (0 + 3600 * config'.interval_hours))
        ∧ (true = false → account'.next_sync_at = none) :=
  set_account_schedule_snaps c7link "y" rfl
    { enabled := true, interval_hours := 5, days_to_sync := 7 } 0 (by decide)

/-! ## Unlinking (`unlink_akahu_account`, `akahu.py` lines 121-138) -/

/-- `Result.scalar_one_or_none()`: none for no match, the row for exactly
one, an exception for several. -/
def scalar_one_or_none (l : List LinkRow) (p : LinkRow → Bool) : Except String (Option LinkRow) :=
  match l.filter p with
  | [] => .ok none
  | [x] => .ok (some x)
  | _ => .error "MultipleResultsFound"

/-- `unlink_akahu_account`: look the link row up; delete it if present;
return success either way (no 404 for a missing row). -/
def unlink_akahu_account (db : List LinkRow) (akahu_account_id : String) :
    Except String (String × List LinkRow) :=
  match scalar_one_or_none db (fun a => a.akahu_account_id == akahu_account_id) with
  | .error e => .error e
  | .ok none => .ok ("Account unlinked", db)
  | .ok (some existing) => .ok ("Account unlinked", db.erase existing)

theorem filter_singleton_erase (p : LinkRow → Bool) :
    ∀ (db : List LinkRow) (x : LinkRow), db.filter p = [x] → (db.erase x).filter p = [] := by
  intro db
  induction db with
  | nil => intro x h; simp at h
  | cons a l ih =>
      intro x h
      by_cases hpa : p a = true
      · rw [List.filter_cons_of_pos hpa] at h
        injection h with h1 h2
        subst h1
        rw [List.erase_cons_head]
        exact h2
      · rw [List.filter_cons_of_neg hpa] at h
        have hpx : p x = true := by
          have : x ∈ l.filter p := by rw [h]; exact List.mem_singleton_self _
          exact (List.mem_filter.mp this).2
        have hax : ¬((a == x) = true) := by
          intro hh
          have hax' : a = x := eq_of_beq hh
          subst hax'
          rw [hpx] at hpa
          exact hpa rfl
        rw [List.erase_cons_tail hax, List.filter_cons_of_neg hpa]
        exact ih x h

/-- C10: unlinking is idempotent — for any store satisfying the unique
constraint on `akahu_account_id`, the unlink endpoint succeeds whether or not
a link row exists, deletes the row when present, treats a missing row as
success (the store is returned unchanged), and a second unlink returns the
same state as the first. -/
theorem unlink_akahu_account_idempotent (db : List LinkRow) (id : String)
    (huniq : (db.filter (fun a => a.akahu_account_id == id)).length ≤ 1) :
    ∃ db', unlink_akahu_account db id = .ok ("Account unlinked", db')
      ∧ db'.filter (fun a => a.akahu_account_id == id) = []
      ∧ unlink_akahu_account db' id = .ok ("Account unlinked", db')
      ∧ (db.filter (fun a => a.akahu_account_id == id) = [] → db' = db) := by
  rcases h : db.filter (fun a => a.akahu_account_id == id) with _ | ⟨x, _ | ⟨y, rest⟩⟩
  · refine ⟨db, ?_, h, ?_, fun _ => rfl⟩
    · unfold unlink_akahu_account scalar_one_or_none
      rw [h]
    · unfold unlink_akahu_account scalar_one_or_none
      rw [h]
  · have herased : (db.erase x).filter (fun a => a.akahu_account_id == id) = [] :=
      filter_singleton_erase _ db x h
    refine ⟨db.erase x, ?_, herased, ?_, ?_⟩
    · unfold unlink_akahu_account scalar_one_or_none
      rw [h]
    · unfold unlink_akahu_account scalar_one_or_none
      rw [herased]
    · intro h0; rw [h0] at h; cases h
  · exfalso
    rw [h] at huniq
    simp at huniq

def c10row : LinkRow := { akahu_account_id := "acc", ynab_account_id := some "y" }

/-- Witness for C10: a store holding exactly the one link row. -/
theorem unlink_akahu_account_idempotent_witness :
    ∃ db', unlink_akahu_account [c10row] "acc" = .ok ("Account unlinked", db')
      ∧ db'.filter (fun a => a.akahu_account_id == "acc") = []
      ∧ unlink_akahu_account db' "acc" = .ok ("Account unlinked", db')
      ∧ (([c10row] : List LinkRow).filter (fun a => a.akahu_account_id == "acc") = []
          → db' = [c10row]) :=
  unlink_akahu_account_idempotent [c10row] "acc" (by decide)

end YnabSync
